import Mathlib

/-!
Verification of the Toolkit metrics subsystem (tank/util/metrics.py):
shallow embedding of the metrics queue, the dispatcher lifecycle and the
dispatch worker loop, with theorems settling the specification claims.
-/

set_option autoImplicit false

namespace Metrics

/-- The data dictionary held by a `ToolkitMetric`/`EventMetric`: the code
stores keys event_group, event_name and an event_property sub-dictionary
(string keys, values modelled as strings). -/
structure MetricData where
  event_group : String
  event_name : String
  event_property : List (String × String)
deriving DecidableEq, Repr

/-- An `EventMetric` object: wraps its `_data` dictionary, exposed via the
`data` property. -/
structure EventMetric where
  data : MetricData
deriving DecidableEq, Repr

/-- Python dict update `d[k] = v`: replace the value at an existing key
(keeping insertion order), otherwise append the pair at the end. Models
`EventMetric.add_event_property`. -/
def setKey (l : List (String × String)) (k v : String) : List (String × String) :=
  if l.any (fun p => p.1 = k) then
    l.map (fun p => if p.1 = k then (k, v) else p)
  else
    l ++ [(k, v)]

/-- Embeds `EventMetric.__init__(event_group, event_name, event_properties)`:
the data dict gets the group and name, event_property starts as
the default pair (event_type, event), then each supplied property is added
via `add_event_property`. -/
def mkEventMetric (event_group event_name : String)
    (event_properties : List (String × String)) : EventMetric :=
  { data :=
      { event_group := event_group
        event_name := event_name
        event_property :=
          event_properties.foldl (fun acc p => setKey acc p.1 p.2)
            [("event_type", "event")] } }

/-- Embeds `EventMetric.__repr__`: the dedup identity string,
`"%s:%s" % (data["event_group"], data["event_name"])`. -/
def eventRepr (m : EventMetric) : String :=
  m.data.event_group ++ ":" ++ m.data.event_name

/-- The state of `MetricsQueueSingleton`: the underlying deque `_queue`
(head at the front of the list) and the class-level seen-identifier set
`__logged_metrics` (modelled as a duplicate-free list with set-style add). -/
structure QState where
  queue : List EventMetric
  logged : List String
deriving DecidableEq, Repr

/-- The freshly created singleton: empty deque, empty logged set. -/
def initState : QState :=
  { queue := [], logged := [] }

/-- Python set add: insert the identifier only if not already present. -/
def setAdd (s : List String) (x : String) : List String :=
  if x ∈ s then s else s ++ [x]

/-- Embeds `MetricsQueueSingleton.log(metric, log_once)`: compute the identity
`repr(metric)`; if `log_once` and the identity is in the seen set, return
without modification; otherwise append the metric to the tail of the deque
and add the identity to the seen set (on every enqueue, regardless of
`log_once`). -/
def log (st : QState) (metric : EventMetric) (log_once : Bool) : QState :=
  let mid := eventRepr metric
  if log_once = true ∧ mid ∈ st.logged then
    st
  else
    { queue := st.queue ++ [metric]
      logged := setAdd st.logged mid }

/-- A point at which the body of the `try` block in `log` can fault:
before the deque append has happened, or after the append but before the
identifier was added to the seen set. -/
inductive LogFault where
  | beforeAppend
  | afterAppend
deriving DecidableEq, Repr

/-- Embeds `MetricsQueueSingleton.log` with an explicit internal-fault oracle.
The `try ... except: pass` swallows any exception raised by the append or
the set add, so every path returns normally (`Except.ok`); the resulting
state reflects how far the try body got before the fault. -/
def logFallible (fault : Option LogFault) (st : QState) (metric : EventMetric)
    (log_once : Bool) : Except String QState :=
  let mid := eventRepr metric
  if log_once = true ∧ mid ∈ st.logged then
    Except.ok st
  else
    match fault with
    | some LogFault.beforeAppend => Except.ok st
    | some LogFault.afterAppend =>
        Except.ok { st with queue := st.queue ++ [metric] }
    | none =>
        Except.ok { queue := st.queue ++ [metric], logged := setAdd st.logged mid }

/-- Embeds `MetricsQueueSingleton.get_metrics(count)`: `count = none` models the
absent argument (`count=None`). Under lock: if nothing is pending return
the empty list; otherwise when `not count or count > num_pending` (Python
falsiness: `None` or `0`) replace `count` with `num_pending`; then pop
`range(0, count)` elements from the head (zero iterations when `count` is
negative). Returns the popped metrics and the resulting state. -/
def get_metrics (st : QState) (count : Option Int) : List EventMetric × QState :=
  let num_pending : Nat := st.queue.length
  if num_pending = 0 then
    ([], st)
  else
    let c : Int :=
      match count with
      | none => (num_pending : Int)
      | some c0 => if c0 = 0 ∨ c0 > (num_pending : Int) then (num_pending : Int) else c0
    let k : Nat := c.toNat
    (st.queue.take k, { st with queue := st.queue.drop k })

/-! ### Dispatcher lifecycle (`MetricsDispatcher`) -/

/-- A handle to a `MetricsDispatchWorkerThread` as seen by the dispatcher:
whether `halt()` has been called on it. A worker is running when it has not
been halted. -/
structure WorkerHandle where
  halted : Bool
deriving DecidableEq, Repr

/-- The mutable state of a `MetricsDispatcher`: the configured worker count
`_num_workers`, the live worker list `_workers` and the `_dispatching`
flag. -/
structure DispatcherState where
  num_workers : Nat
  workers : List WorkerHandle
  dispatching : Bool
deriving DecidableEq, Repr

/-- Embeds `MetricsDispatcher.__init__(engine, num_workers)`: empty worker list,
not dispatching. -/
def dispatcherInit (num_workers : Nat) : DispatcherState :=
  { num_workers := num_workers, workers := [], dispatching := false }

/-- Embeds `MetricsDispatcher.start()`, with `auth` the result of
`get_authenticated_user()` (true when a valid authenticated user exists):
no-op when already dispatching; no-op when there is no authenticated user;
otherwise create and start `_num_workers` workers, append them to the
worker list, and set `_dispatching = True`. -/
def dispatcherStart (auth : Bool) (d : DispatcherState) : DispatcherState :=
  if d.dispatching = true then
    d
  else if auth = false then
    d
  else
    { d with
      workers := d.workers ++ List.replicate d.num_workers { halted := false }
      dispatching := true }

/-- Embeds `MetricsDispatcher.stop()`: halt every live worker, set
`_dispatching = False` and reset the worker list to empty. -/
def dispatcherStop (d : DispatcherState) : DispatcherState :=
  { d with workers := [], dispatching := false }

/-- A lifecycle action on the dispatcher: a `start()` call (with the
availability of an authenticated user at that moment) or a `stop()`
call. -/
inductive DAction where
  | start (auth : Bool)
  | stop
deriving DecidableEq, Repr

/-- Run a sequence of `start`/`stop` calls against a dispatcher state. -/
def dispatcherRun (d : DispatcherState) : List DAction → DispatcherState
  | [] => d
  | DAction.start auth :: rest => dispatcherRun (dispatcherStart auth d) rest
  | DAction.stop :: rest => dispatcherRun (dispatcherStop d) rest

/-- The claimed dispatcher invariant: the dispatching flag is true iff the
worker list is non-empty and every worker in it is running (not halted). -/
def dispatchingInv (d : DispatcherState) : Prop :=
  d.dispatching = true ↔ (d.workers ≠ [] ∧ ∀ w ∈ d.workers, w.halted = false)

instance (d : DispatcherState) : Decidable (dispatchingInv d) := by
  unfold dispatchingInv; infer_instance

/-! ### Dispatch worker (`MetricsDispatchWorkerThread`) -/

/-- Constant `DISPATCH_BATCH_SIZE`: the worker drains this many metrics per cycle. -/
def DISPATCH_BATCH_SIZE : Int := 10

/-- The gate `sg_connection.server_caps.version >= (7, 4, 0)`: Python
tuple comparison, lexicographic on (major, minor, patch). -/
def versionGE (v minv : Nat × Nat × Nat) : Bool :=
  decide (minv.1 < v.1) ||
    (decide (v.1 = minv.1) &&
      (decide (minv.2.1 < v.2.1) ||
        (decide (v.2.1 = minv.2.1) && decide (minv.2.2 ≤ v.2.2))))

/-- Strict lexicographic order on version triples: the remote version is
below the required minimum. -/
def versionBelow (v minv : Nat × Nat × Nat) : Prop :=
  v.1 < minv.1 ∨
    (v.1 = minv.1 ∧ (v.2.1 < minv.2.1 ∨ (v.2.1 = minv.2.1 ∧ v.2.2 < minv.2.2)))

instance (v minv : Nat × Nat × Nat) : Decidable (versionBelow v minv) := by
  unfold versionBelow; infer_instance

/-- Capability check of the worker at loop entry: `metrics_ok` is true iff
the connection has `server_caps`, its `version` is not `None` (both
modelled by `some`), and the version is at least `(7, 4, 0)`. -/
def metricsOk (caps : Option (Nat × Nat × Nat)) : Bool :=
  match caps with
  | none => false
  | some v => versionGE v (7, 4, 0)

/-- Outcome of one transport send attempt (`urllib2.urlopen`) inside
`_dispatch`: the request succeeds, the server answers with an HTTP error
status (raises `urllib2.HTTPError`, the only exception class the
`except` clause in `_dispatch` catches), or some other exception is raised
(e.g. a connection-level `urllib2.URLError`). -/
inductive SendOutcome where
  | success
  | httpError
  | otherError
deriving DecidableEq, Repr

/-- Observable trace of one `_dispatch(metrics)` call: whether the send
was attempted, and the argument the post-dispatch core hook
(`execute_core_hook`) was invoked with (`none` when the hook was never
reached). -/
structure DispatchTrace where
  sendAttempted : Bool
  hookArg : Option (List MetricData)
deriving DecidableEq, Repr

/-- Embeds `MetricsDispatchWorkerThread._dispatch(metrics)`: build the payload and
attempt the send. On success, or on an `HTTPError` (caught and ignored),
fall through to the core hook, invoked with `[m.data for m in metrics]`,
and return normally. Any other exception from the send propagates out of
`_dispatch` before the hook line is reached (`Except.error`). -/
def dispatchCall (outcome : SendOutcome) (metrics : List EventMetric) :
    Except DispatchTrace DispatchTrace :=
  match outcome with
  | SendOutcome.otherError =>
      Except.error { sendAttempted := true, hookArg := none }
  | _ =>
      Except.ok
        { sendAttempted := true
          hookArg := some (metrics.map EventMetric.data) }

/-- Observable trace of one iteration of the worker `run` loop body. -/
structure LoopCycle where
  drained : List EventMetric
  dispatchTrace : Option DispatchTrace
  raisedToCaller : Bool
  reachedWait : Bool
deriving DecidableEq, Repr

/-- One iteration of the `while not halt_event.isSet()` body: drain up to
`DISPATCH_BATCH_SIZE` metrics from the singleton queue; if any, call
`_dispatch`. The body is wrapped in `try ... except Exception: pass`
followed by `finally: halt_event.wait(...)`, so an exception escaping
`_dispatch` never propagates (`raisedToCaller = false`) and the wait step
is always reached. -/
def runCycle (outcome : SendOutcome) (st : QState) : QState × LoopCycle :=
  let step := get_metrics st (some DISPATCH_BATCH_SIZE)
  let metrics := step.1
  let st' := step.2
  if metrics.isEmpty then
    (st', { drained := [], dispatchTrace := none,
            raisedToCaller := false, reachedWait := true })
  else
    match dispatchCall outcome metrics with
    | Except.ok t =>
        (st', { drained := metrics, dispatchTrace := some t,
                raisedToCaller := false, reachedWait := true })
    | Except.error t =>
        (st', { drained := metrics, dispatchTrace := some t,
                raisedToCaller := false, reachedWait := true })

/-- Loop of the worker after the capability check, parameterised by
the per-cycle transport outcomes; the list length is the number of
iterations executed before the halt event is observed. -/
def runLoop (outcomes : List SendOutcome) (st : QState) : QState × List LoopCycle :=
  match outcomes with
  | [] => (st, [])
  | o :: rest =>
      let step := runCycle o st
      let next := runLoop rest step.1
      (next.1, step.2 :: next.2)

/-- Embeds `MetricsDispatchWorkerThread.run()`: probe the server capability once;
when `metrics_ok` is false, return immediately (zero cycles); otherwise
run the dispatch loop until halted. -/
def workerRun (caps : Option (Nat × Nat × Nat)) (outcomes : List SendOutcome)
    (st : QState) : QState × List LoopCycle :=
  if metricsOk caps then runLoop outcomes st else (st, [])

/-! ### Helper lemmas -/

theorem mem_setAdd (s : List String) (x : String) : x ∈ setAdd s x := by
  unfold setAdd
  split
  · assumption
  · simp

theorem log_of_not_logged (st : QState) (m : EventMetric) (b : Bool)
    (h : eventRepr m ∉ st.logged) :
    log st m b = { queue := st.queue ++ [m], logged := st.logged ++ [eventRepr m] } := by
  unfold log setAdd
  simp [h]

theorem log_of_logged_once (st : QState) (m : EventMetric)
    (h : eventRepr m ∈ st.logged) :
    log st m true = st := by
  unfold log
  simp [h]

/-- Example queue state used as a concrete input: one pending metric, an
empty seen set. -/
def exQState : QState :=
  { queue := [mkEventMetric "app" "launched" []], logged := [] }

/-! ### C9: negative count drains nothing -/

/-- C9: for every queue state and every strictly negative count `c`,
`get_metrics(c)` returns the empty list and leaves the pending queue and
the seen set unchanged: the negative count is neither falsy nor clamped,
and the pop loop over `range(0, c)` runs zero iterations. -/
theorem get_metrics_neg_count (st : QState) (c : Int) (h : c < 0) :
    (get_metrics st (some c)).1 = [] ∧
    (get_metrics st (some c)).2.queue = st.queue ∧
    (get_metrics st (some c)).2.logged = st.logged := by
  unfold get_metrics
  by_cases hq : st.queue.length = 0
  · simp [hq]
  · have hcond : ¬ (c = 0 ∨ c > (st.queue.length : Int)) := by
      push_neg
      refine ⟨by omega, ?_⟩
      have : (0 : Int) ≤ (st.queue.length : Int) := Int.natCast_nonneg _
      omega
    have hk : c.toNat = 0 := Int.toNat_of_nonpos (le_of_lt h)
    simp [hq, hcond, hk]

/-- Witness for C9 at a concrete state and count. -/
theorem get_metrics_neg_count_witness :
    (-3 : Int) < 0 ∧
    ((get_metrics exQState (some (-3))).1 = [] ∧
     (get_metrics exQState (some (-3))).2.queue = exQState.queue ∧
     (get_metrics exQState (some (-3))).2.logged = exQState.logged) :=
  ⟨by decide, get_metrics_neg_count exQState (-3) (by decide)⟩

/-! ### C10: the dedup identity is not injective -/

/-- First colliding event: group "a:b", name "c". -/
def collideA : EventMetric := mkEventMetric "a:b" "c" []

/-- Second colliding event: group "a", name "b:c". -/
def collideB : EventMetric := mkEventMetric "a" "b:c" []

/-- C10: the dedup identity is the concatenation group + ":" + name, which
is not injective over (group, name) pairs: the events (group "a:b",
name "c") and (group "a", name "b:c") differ in both attributes yet share
one identity, so after enqueuing the first, a later log_once=true enqueue
of the second is a no-op. -/
theorem repr_not_injective :
    eventRepr collideA = eventRepr collideB ∧
    collideA.data.event_group ≠ collideB.data.event_group ∧
    collideA.data.event_name ≠ collideB.data.event_name ∧
    log (log initState collideA false) collideB true = log initState collideA false := by
  decide

/-! ### C2: enqueue never raises -/

/-- C2: for every metric and every value of log_once, and for every
internal fault point inside the try block, `MetricsQueueSingleton.log`
returns normally: the bare except swallows any internal fault, so no
exception ever reaches the caller. -/
theorem log_never_raises (fault : Option LogFault) (st : QState)
    (m : EventMetric) (log_once : Bool) :
    ∃ st', logFallible fault st m log_once = Except.ok st' := by
  unfold logFallible
  by_cases h : log_once = true ∧ eventRepr m ∈ st.logged
  · exact ⟨st, by simp [h]⟩
  · cases fault with
    | none =>
        refine ⟨{ queue := st.queue ++ [m], logged := setAdd st.logged (eventRepr m) }, ?_⟩
        simp [h]
    | some f =>
        cases f with
        | beforeAppend => exact ⟨st, by simp [h]⟩
        | afterAppend =>
            refine ⟨{ st with queue := st.queue ++ [m] }, ?_⟩
            simp [h]

/-! ### C8: start without an authenticated user is a no-op -/

/-- C8: when no valid authenticated user is available,
`MetricsDispatcher.start()` is a no-op: the state is returned unchanged,
so no worker is created, the worker list stays as it was (empty stays
empty) and the dispatching flag keeps its value (false stays false); no
error surfaces to the caller. -/
theorem start_no_auth_noop (auth : Bool) (d : DispatcherState)
    (h : auth = false) :
    dispatcherStart auth d = d ∧
    (dispatcherStart auth d).workers = d.workers ∧
    (dispatcherStart auth d).dispatching = d.dispatching := by
  subst h
  unfold dispatcherStart
  by_cases hd : d.dispatching = true <;> simp [hd]

/-- Witness for C8 at a concrete dispatcher state. -/
theorem start_no_auth_noop_witness :
    false = false ∧
    (dispatcherStart false (dispatcherInit 1) = dispatcherInit 1 ∧
     (dispatcherStart false (dispatcherInit 1)).workers = (dispatcherInit 1).workers ∧
     (dispatcherStart false (dispatcherInit 1)).dispatching = (dispatcherInit 1).dispatching) :=
  ⟨rfl, start_no_auth_noop false (dispatcherInit 1) rfl⟩

/-! ### C1: drain bounds -/

/-- C1 counterexample: the claim says `drain(N)` returns at most N events
for every supplied count, but Python treats a count of 0 as falsy
(`if not count`), replaces it by the pending length, and drains
everything: on a queue holding one event, `get_metrics(0)` returns one
event, more than 0. -/
theorem get_metrics_zero_drains_all :
    ¬ (((get_metrics exQState (some 0)).1.length : Int) ≤ 0) := by
  decide

/-- C1 amended: for every strictly positive count N, `get_metrics(N)`
returns at most N events and at most as many as are pending; and with no
count argument it returns all pending events and leaves the queue empty.
(The original claim quantified over every supplied count; a count of 0 is
treated as absent and drains everything, and a negative count drains
nothing, which a negative bound cannot admit.) -/
theorem get_metrics_bounds (st : QState) (N : Int) (hN : 1 ≤ N) :
    ((get_metrics st (some N)).1.length : Int) ≤ N ∧
    (get_metrics st (some N)).1.length ≤ st.queue.length ∧
    (get_metrics st none).1 = st.queue ∧
    (get_metrics st none).2.queue = [] := by
  unfold get_metrics
  by_cases hq : st.queue.length = 0
  · have hq' : st.queue = [] := List.length_eq_zero.mp hq
    simp [hq']
    omega
  · have hN0 : ¬ N = 0 := by omega
    by_cases hgt : N > (st.queue.length : Int)
    · simp [hq, hN0, hgt, List.length_take]
      omega
    · simp [hq, hN0, hgt, List.length_take]
      omega

/-- Witness for C1 at a concrete state and count. -/
theorem get_metrics_bounds_witness :
    (1 : Int) ≤ 2 ∧
    (((get_metrics exQState (some 2)).1.length : Int) ≤ 2 ∧
     (get_metrics exQState (some 2)).1.length ≤ exQState.queue.length ∧
     (get_metrics exQState none).1 = exQState.queue ∧
     (get_metrics exQState none).2.queue = []) :=
  ⟨by decide, get_metrics_bounds exQState 2 (by decide)⟩

/-! ### C4: log_once deduplication -/

/-- C4: for events sharing group and name, two log_once=true calls append
the event at most once; and a log_once=false call followed by a
log_once=true call of the same identity suppresses the second call,
because the identity is recorded in the seen set on every enqueue
regardless of the log_once flag. -/
theorem log_once_dedup (st : QState) (m1 m2 : EventMetric)
    (hg : m1.data.event_group = m2.data.event_group)
    (hn : m1.data.event_name = m2.data.event_name) :
    (log (log st m1 true) m2 true).queue.length ≤ st.queue.length + 1 ∧
    log (log st m1 false) m2 true = log st m1 false := by
  have hid : eventRepr m1 = eventRepr m2 := by
    unfold eventRepr
    rw [hg, hn]
  constructor
  · by_cases hmem : eventRepr m1 ∈ st.logged
    · rw [log_of_logged_once st m1 hmem,
        log_of_logged_once st m2 (hid ▸ hmem)]
      omega
    · rw [log_of_not_logged st m1 true hmem,
        log_of_logged_once _ m2 (by simp [← hid])]
      simp
  · have hmem2 : eventRepr m2 ∈ (log st m1 false).logged := by
      rw [← hid]
      unfold log
      simp only [Bool.false_eq_true, false_and, if_false]
      exact mem_setAdd _ _
    exact log_of_logged_once _ m2 hmem2

/-- Witness for C4 at concrete metrics sharing group and name. -/
theorem log_once_dedup_witness :
    (mkEventMetric "app" "launched" []).data.event_group =
      (mkEventMetric "app" "launched" [("os", "linux")]).data.event_group ∧
    (mkEventMetric "app" "launched" []).data.event_name =
      (mkEventMetric "app" "launched" [("os", "linux")]).data.event_name ∧
    ((log (log initState (mkEventMetric "app" "launched" []) true)
        (mkEventMetric "app" "launched" [("os", "linux")]) true).queue.length ≤
      initState.queue.length + 1 ∧
     log (log initState (mkEventMetric "app" "launched" []) false)
        (mkEventMetric "app" "launched" [("os", "linux")]) true =
      log initState (mkEventMetric "app" "launched" []) false) :=
  ⟨by decide, by decide,
    log_once_dedup initState (mkEventMetric "app" "launched" [])
      (mkEventMetric "app" "launched" [("os", "linux")]) (by decide) (by decide)⟩

/-! ### C5: FIFO order -/

/-- A sequence of `log` calls: each element is a metric together with the
log_once flag of its call. -/
def enqueueAll (st : QState) (evts : List (EventMetric × Bool)) : QState :=
  evts.foldl (fun s p => log s p.1 p.2) st

theorem enqueueAll_queue (evts : List (EventMetric × Bool)) (st : QState)
    (hnew : ∀ p ∈ evts, eventRepr p.1 ∉ st.logged)
    (hdist : (evts.map fun p => eventRepr p.1).Nodup) :
    (enqueueAll st evts).queue = st.queue ++ evts.map Prod.fst := by
  induction evts generalizing st with
  | nil => simp [enqueueAll]
  | cons p rest ih =>
    have hp : eventRepr p.1 ∉ st.logged := hnew p (List.mem_cons_self p rest)
    have hlog : log st p.1 p.2 =
        { queue := st.queue ++ [p.1], logged := st.logged ++ [eventRepr p.1] } :=
      log_of_not_logged st p.1 p.2 hp
    have hnotin : eventRepr p.1 ∉ rest.map fun q => eventRepr q.1 :=
      (List.nodup_cons.mp (by simpa using hdist)).1
    have hnew' : ∀ q ∈ rest, eventRepr q.1 ∉ st.logged ++ [eventRepr p.1] := by
      intro q hq
      simp only [List.mem_append, List.mem_singleton]
      push_neg
      refine ⟨hnew q (List.mem_cons_of_mem p hq), ?_⟩
      intro hcontra
      exact hnotin (hcontra ▸ List.mem_map_of_mem (fun r => eventRepr r.1) hq)
    have hdist' : (rest.map fun q => eventRepr q.1).Nodup :=
      (List.nodup_cons.mp (by simpa using hdist)).2
    calc (enqueueAll st (p :: rest)).queue
        = (enqueueAll (log st p.1 p.2) rest).queue := rfl
      _ = (st.queue ++ [p.1]) ++ rest.map Prod.fst := by
            rw [hlog]
            exact ih { queue := st.queue ++ [p.1],
                       logged := st.logged ++ [eventRepr p.1] } hnew' hdist'
      _ = st.queue ++ (p :: rest).map Prod.fst := by simp

theorem get_metrics_take_drop (st : QState) (count : Option Int) :
    ∃ k, (get_metrics st count).1 = st.queue.take k ∧
         (get_metrics st count).2.queue = st.queue.drop k := by
  unfold get_metrics
  by_cases hq : st.queue.length = 0
  · refine ⟨0, ?_, ?_⟩ <;> simp [hq]
  · refine ⟨(Int.toNat (match count with
      | none => (st.queue.length : Int)
      | some c0 =>
          if c0 = 0 ∨ c0 > (st.queue.length : Int) then (st.queue.length : Int)
          else c0)), ?_, ?_⟩ <;>
      simp [hq]

/-- C5: starting from the fresh singleton, enqueue any sequence of events
with pairwise-distinct identities (with arbitrary log_once flags), then
drain with any count: the returned events are exactly an initial segment
of the enqueued sequence in enqueue order, and the remaining queue is the
corresponding final segment. -/
theorem fifo_order (evts : List (EventMetric × Bool)) (count : Option Int)
    (hdist : (evts.map fun p => eventRepr p.1).Nodup) :
    ∃ k, (get_metrics (enqueueAll initState evts) count).1 =
            (evts.map Prod.fst).take k ∧
         (get_metrics (enqueueAll initState evts) count).2.queue =
            (evts.map Prod.fst).drop k := by
  have hq : (enqueueAll initState evts).queue = evts.map Prod.fst := by
    have h := enqueueAll_queue evts initState (by intro p _; simp [initState]) hdist
    simpa [initState] using h
  obtain ⟨k, h1, h2⟩ := get_metrics_take_drop (enqueueAll initState evts) count
  exact ⟨k, by rw [h1, hq], by rw [h2, hq]⟩

/-- Concrete enqueue sequence for the C5 witness: three events with
pairwise distinct identities and mixed log_once flags. -/
def fifoEvts : List (EventMetric × Bool) :=
  [(mkEventMetric "core" "open" [], false),
   (mkEventMetric "core" "save" [], true),
   (mkEventMetric "app" "open" [], false)]

/-- Witness for C5 at a concrete enqueue sequence and count. -/
theorem fifo_order_witness :
    (fifoEvts.map fun p => eventRepr p.1).Nodup ∧
    (∃ k, (get_metrics (enqueueAll initState fifoEvts) (some 2)).1 =
            (fifoEvts.map Prod.fst).take k ∧
          (get_metrics (enqueueAll initState fifoEvts) (some 2)).2.queue =
            (fifoEvts.map Prod.fst).drop k) :=
  ⟨by decide, fifo_order fifoEvts (some 2) (by decide)⟩

/-! ### C6: dispatcher invariant -/

/-- Strengthened induction invariant for the dispatcher lifecycle: the
configured count never changes; when dispatching, the worker list is
exactly the batch of fresh workers created by the successful start; when
not dispatching, the worker list is empty. -/
def goodState (n : Nat) (d : DispatcherState) : Prop :=
  d.num_workers = n ∧
  (d.dispatching = true → d.workers = List.replicate n { halted := false }) ∧
  (d.dispatching = false → d.workers = [])

theorem goodState_start (n : Nat) (auth : Bool) (d : DispatcherState)
    (h : goodState n d) : goodState n (dispatcherStart auth d) := by
  obtain ⟨hm, htrue, hfalse⟩ := h
  unfold dispatcherStart
  by_cases hd : d.dispatching = true
  · simp [hd]
    exact ⟨hm, htrue, hfalse⟩
  · by_cases ha : auth = false
    · simp [hd, ha]
      exact ⟨hm, htrue, hfalse⟩
    · have hd' : d.dispatching = false := by
        cases hdd : d.dispatching
        · rfl
        · exact absurd hdd hd
      have hw : d.workers = [] := hfalse hd'
      simp [hd, ha, goodState, hm, hw]

theorem goodState_stop (n : Nat) (d : DispatcherState)
    (h : goodState n d) : goodState n (dispatcherStop d) := by
  obtain ⟨hm, _, _⟩ := h
  exact ⟨hm, by simp [dispatcherStop], by simp [dispatcherStop]⟩

theorem goodState_run (n : Nat) (acts : List DAction) (d : DispatcherState)
    (h : goodState n d) : goodState n (dispatcherRun d acts) := by
  induction acts generalizing d with
  | nil => exact h
  | cons a rest ih =>
    cases a with
    | start auth => exact ih (dispatcherStart auth d) (goodState_start n auth d h)
    | stop => exact ih (dispatcherStop d) (goodState_stop n d h)

/-- C6 counterexample: the claim quantifies over any configured worker
count, but with num_workers = 0 a successful start creates zero workers
(`range(0)` is empty) and still sets the dispatching flag, so the flag is
true while the worker list is empty. -/
theorem dispatcher_inv_counterexample :
    ¬ dispatchingInv (dispatcherRun (dispatcherInit 0) [DAction.start true]) := by
  decide

/-- C6 amended: for every configured worker count of at least one, in
every dispatcher state reachable by sequences of start() and stop()
calls, the dispatching flag is true iff the worker list is non-empty and
every listed worker is running (not halted). -/
theorem dispatcher_inv (n : Nat) (hn : 1 ≤ n) (acts : List DAction) :
    dispatchingInv (dispatcherRun (dispatcherInit n) acts) := by
  have hinit : goodState n (dispatcherInit n) := by
    refine ⟨rfl, ?_, fun _ => rfl⟩
    intro hcontra
    simp [dispatcherInit] at hcontra
  obtain ⟨hm, htrue, hfalse⟩ := goodState_run n acts (dispatcherInit n) hinit
  unfold dispatchingInv
  cases hd : (dispatcherRun (dispatcherInit n) acts).dispatching
  · rw [hfalse hd]
    simp
  · rw [htrue hd]
    simp [List.mem_replicate]
    omega

/-- Witness for C6 at a concrete worker count and action sequence. -/
theorem dispatcher_inv_witness :
    1 ≤ 1 ∧
    dispatchingInv (dispatcherRun (dispatcherInit 1)
      [DAction.start true, DAction.start true, DAction.stop, DAction.start true]) :=
  ⟨by decide, dispatcher_inv 1 (by decide)
    [DAction.start true, DAction.start true, DAction.stop, DAction.start true]⟩

/-! ### C7: capability gate -/

theorem versionGE_eq_false_of_below (v minv : Nat × Nat × Nat)
    (h : versionBelow v minv) : versionGE v minv = false := by
  rcases v with ⟨a, b, c⟩
  rcases minv with ⟨d, e, f⟩
  simp only [versionBelow] at h
  simp only [versionGE, Bool.or_eq_false_iff, Bool.and_eq_false_iff,
    decide_eq_false_iff_not, not_lt, not_le]
  omega

/-- C7: if the remote-reported server version is below the fixed minimum
(7, 4, 0) in the lexicographic major.minor.patch order, the run loop of
the worker exits permanently with zero cycles, hence zero sends and zero
drains, and the queue state is returned unchanged, so events enqueued
before (and, the worker being gone, after) remain pending and
undelivered. -/
theorem capability_gate (v : Nat × Nat × Nat) (outcomes : List SendOutcome)
    (st : QState) (h : versionBelow v (7, 4, 0)) :
    workerRun (some v) outcomes st = (st, []) := by
  have hf : versionGE v (7, 4, 0) = false := versionGE_eq_false_of_below v (7, 4, 0) h
  simp [workerRun, metricsOk, hf]

/-- Witness for C7 at a concrete below-minimum version. -/
theorem capability_gate_witness :
    versionBelow (7, 3, 9) (7, 4, 0) ∧
    workerRun (some (7, 3, 9)) [SendOutcome.success] exQState = (exQState, []) :=
  ⟨by decide, capability_gate (7, 3, 9) [SendOutcome.success] exQState (by decide)⟩

/-! ### C3: post-dispatch hook -/

/-- C3 counterexample: on a queue holding one pending metric, a dispatch
cycle whose send raises a non-HTTP transport exception drains a non-empty
batch and attempts the send, yet the post-dispatch core hook is never
invoked: the except clause in `_dispatch` catches only `HTTPError`, so the
exception leaves `_dispatch` before the hook line. -/
theorem dispatch_hook_counterexample :
    (runCycle SendOutcome.otherError exQState).2.drained ≠ [] ∧
    ((runCycle SendOutcome.otherError exQState).2.dispatchTrace.map
      (fun t => t.sendAttempted)) = some true ∧
    ((runCycle SendOutcome.otherError exQState).2.dispatchTrace.bind
      (fun t => t.hookArg)) = none := by
  decide

/-- C3 amended: for every non-empty batch drained in a dispatch cycle,
when the transport send succeeds or raises an HTTP error the post-dispatch
hook is invoked with the data of the drained batch; when the send raises
any other transport exception the hook is skipped; in every case the
exception (if any) is swallowed by the run loop, which proceeds to its
wait step without raising. -/
theorem dispatch_hook (st : QState) (o : SendOutcome)
    (hne : (get_metrics st (some DISPATCH_BATCH_SIZE)).1 ≠ []) :
    (runCycle o st).2.drained = (get_metrics st (some DISPATCH_BATCH_SIZE)).1 ∧
    (o ≠ SendOutcome.otherError →
      (runCycle o st).2.dispatchTrace =
        some { sendAttempted := true
               hookArg := some
                 ((get_metrics st (some DISPATCH_BATCH_SIZE)).1.map EventMetric.data) }) ∧
    (o = SendOutcome.otherError →
      (runCycle o st).2.dispatchTrace =
        some { sendAttempted := true, hookArg := none }) ∧
    (runCycle o st).2.raisedToCaller = false ∧
    (runCycle o st).2.reachedWait = true := by
  unfold runCycle
  have hne' : (get_metrics st (some DISPATCH_BATCH_SIZE)).1.isEmpty = false :=
    List.isEmpty_eq_false.mpr hne
  cases o with
  | success => simp [hne', dispatchCall]
  | httpError => simp [hne', dispatchCall]
  | otherError => simp [hne', dispatchCall]

/-- Witness for C3 at a concrete queue state and outcome. -/
theorem dispatch_hook_witness :
    (get_metrics exQState (some DISPATCH_BATCH_SIZE)).1 ≠ [] ∧
    ((runCycle SendOutcome.httpError exQState).2.drained =
        (get_metrics exQState (some DISPATCH_BATCH_SIZE)).1 ∧
     (SendOutcome.httpError ≠ SendOutcome.otherError →
       (runCycle SendOutcome.httpError exQState).2.dispatchTrace =
         some { sendAttempted := true
                hookArg := some
                  ((get_metrics exQState (some DISPATCH_BATCH_SIZE)).1.map
                    EventMetric.data) }) ∧
     (SendOutcome.httpError = SendOutcome.otherError →
       (runCycle SendOutcome.httpError exQState).2.dispatchTrace =
         some { sendAttempted := true, hookArg := none }) ∧
     (runCycle SendOutcome.httpError exQState).2.raisedToCaller = false ∧
     (runCycle SendOutcome.httpError exQState).2.reachedWait = true) :=
  ⟨by decide, dispatch_hook exQState SendOutcome.httpError (by decide)⟩

end Metrics

